import Mathlib

/-!
Verification of the sake build/release automation layer (gulp task configuration
for a WordPress/WooCommerce plugin).

The repository configures an existing workflow runner: tasks are registered under
names and composed sequentially (`gulp.series`) or in parallel (`gulp.parallel`,
`async.parallel`).  The runner itself is not part of the repository, so its
sequencing semantics are modelled from the specification (fail-fast sequential
runs, fan-out/fan-in parallel joins, silently-overwriting registration), while
every task body, task list, and configuration read is embedded from the source
files under src/.
-/

/-- An error value signalled by a failing step (a JS Error or a non-null callback
argument). Only the message is relevant to the orchestration semantics. -/
structure Err where
  msg : String
  deriving DecidableEq

/-- The three ways a step of a sequential pipeline can signal completion:
`ok` (it called its own callback with no error, the pipeline continues from the
updated shared options), `fail` (it called back with an error), and `softStop`
(it called the enclosing task's done callback directly with no error, ending the
whole pipeline successfully without invoking its own continuation - the shape of
the skip sentinel check in the deploy task). -/
inductive StepResult (σ : Type) where
  | ok (s : σ)
  | fail (s : σ) (e : Err)
  | softStop (s : σ)

/-- A step of a sequential pipeline: a state transformer over the shared
mutable options bag. -/
def Step (σ : Type) : Type := σ → StepResult σ

/-- Observable events of one sequential pipeline run: `invoke i` records that
the step at position `i` was started, `doneOk` that the completion callback was
called with no error, `doneErr e` that it was called with error `e`. -/
inductive Event where
  | invoke (i : Nat)
  | doneOk
  | doneErr (e : Err)
  deriving DecidableEq

variable {σ : Type}

/-- Modelled from the spec: the sequential runner (`gulp.series`, not under
src/). Steps run one at a time; each step is invoked only after the previous
one signalled success; the first failure is reported to the completion callback
and the remaining steps are never invoked; a soft stop completes the pipeline
successfully. `i` is the position of the first remaining step, used only to
label the trace. Returns the final state and the event trace. -/
def runSeriesFrom : Nat → List (Step σ) → σ → σ × List Event
  | _, [], s => (s, [Event.doneOk])
  | i, st :: rest, s =>
    match st s with
    | StepResult.ok s1 =>
        ((runSeriesFrom (i + 1) rest s1).1,
          Event.invoke i :: (runSeriesFrom (i + 1) rest s1).2)
    | StepResult.fail s1 e => (s1, [Event.invoke i, Event.doneErr e])
    | StepResult.softStop s1 => (s1, [Event.invoke i, Event.doneOk])

/-- Run a sequential pipeline from its first step. -/
def runSeries (steps : List (Step σ)) (s : σ) : σ × List Event :=
  runSeriesFrom 0 steps s

/-- The state reached after the first `k` steps, provided every one of them
signalled plain success (`none` if some earlier step failed, soft-stopped, or
the list is too short). -/
def runUpTo : Nat → List (Step σ) → σ → Option σ
  | 0, _, s => some s
  | _ + 1, [], _ => none
  | k + 1, st :: rest, s =>
    match st s with
    | StepResult.ok s1 => runUpTo k rest s1
    | _ => none

theorem runSeriesFrom_fail_trace :
    ∀ (i : Nat) (steps : List (Step σ)) (s s1 s2 : σ) (st : Step σ) (e : Err) (k : Nat),
      runUpTo i steps s = some s1 → steps[i]? = some st → st s1 = StepResult.fail s2 e →
      (runSeriesFrom k steps s).2
        = (List.range' k (i + 1)).map Event.invoke ++ [Event.doneErr e] := by
  intro i
  induction i with
  | zero =>
    intro steps s s1 s2 st e k h1 h2 h3
    cases steps with
    | nil => simp at h2
    | cons st0 rest =>
      simp [runUpTo] at h1
      simp at h2
      subst h1
      subst h2
      simp [runSeriesFrom, h3, List.range']
  | succ n ih =>
    intro steps s s1 s2 st e k h1 h2 h3
    cases steps with
    | nil => simp at h2
    | cons st0 rest =>
      simp at h2
      cases hst : st0 s with
      | ok s0 =>
        have h1R : runUpTo n rest s0 = some s1 := by
          simpa [runUpTo, hst] using h1
        have tail := ih rest s0 s1 s2 st e (k + 1) h1R h2 h3
        simp [runSeriesFrom, hst, tail, List.range'_succ]
      | fail s0 e0 => simp [runUpTo, hst] at h1
      | softStop s0 => simp [runUpTo, hst] at h1

theorem runSeriesFrom_softStop_trace :
    ∀ (i : Nat) (steps : List (Step σ)) (s s1 s2 : σ) (st : Step σ) (k : Nat),
      runUpTo i steps s = some s1 → steps[i]? = some st → st s1 = StepResult.softStop s2 →
      (runSeriesFrom k steps s).2
        = (List.range' k (i + 1)).map Event.invoke ++ [Event.doneOk] := by
  intro i
  induction i with
  | zero =>
    intro steps s s1 s2 st k h1 h2 h3
    cases steps with
    | nil => simp at h2
    | cons st0 rest =>
      simp [runUpTo] at h1
      simp at h2
      subst h1
      subst h2
      simp [runSeriesFrom, h3, List.range']
  | succ n ih =>
    intro steps s s1 s2 st k h1 h2 h3
    cases steps with
    | nil => simp at h2
    | cons st0 rest =>
      simp at h2
      cases hst : st0 s with
      | ok s0 =>
        have h1R : runUpTo n rest s0 = some s1 := by
          simpa [runUpTo, hst] using h1
        have tail := ih rest s0 s1 s2 st (k + 1) h1R h2 h3
        simp [runSeriesFrom, hst, tail, List.range'_succ]
      | fail s0 e0 => simp [runUpTo, hst] at h1
      | softStop s0 => simp [runUpTo, hst] at h1

/-- Claim C1: in a sequential pipeline, if the step at position i is reached
(all earlier steps succeeded) and signals failure with error e, then no step
after position i is ever invoked, the completion callback receives exactly one
done event, that event carries e, and no successful completion is signalled. -/
theorem seq_first_failure_aborts (steps : List (Step σ)) (s s1 s2 : σ) (st : Step σ)
    (i : Nat) (e : Err)
    (h1 : runUpTo i steps s = some s1) (h2 : steps[i]? = some st)
    (h3 : st s1 = StepResult.fail s2 e) :
    (∀ j, Event.invoke j ∈ (runSeries steps s).2 → j ≤ i) ∧
    (runSeries steps s).2.count (Event.doneErr e) = 1 ∧
    (∀ e2, Event.doneErr e2 ∈ (runSeries steps s).2 → e2 = e) ∧
    Event.doneOk ∉ (runSeries steps s).2 := by
  have htr := runSeriesFrom_fail_trace i steps s s1 s2 st e 0 h1 h2 h3
  unfold runSeries
  rw [htr]
  refine ⟨?_, ?_, ?_, ?_⟩
  · intro j hj
    simp [List.mem_range'_1] at hj
    omega
  · simp [List.count_append, List.count_eq_zero]
  · intro e2 he2
    simpa using he2
  · simp

/-- Witness for C1 on a concrete three-step pipeline over Nat states whose
second step fails. -/
theorem seq_first_failure_aborts_witness :
    runUpTo 1 [(fun s => StepResult.ok s : Step Nat),
        (fun s => StepResult.fail s ⟨"boom"⟩), (fun s => StepResult.ok s)] 0 = some 0 ∧
    ([(fun s => StepResult.ok s : Step Nat),
        (fun s => StepResult.fail s ⟨"boom"⟩), (fun s => StepResult.ok s)][1]?
      = some (fun s => StepResult.fail s ⟨"boom"⟩)) ∧
    ((∀ j, Event.invoke j ∈
        (runSeries [(fun s => StepResult.ok s : Step Nat),
          (fun s => StepResult.fail s ⟨"boom"⟩), (fun s => StepResult.ok s)] 0).2 → j ≤ 1) ∧
      (runSeries [(fun s => StepResult.ok s : Step Nat),
          (fun s => StepResult.fail s ⟨"boom"⟩),
          (fun s => StepResult.ok s)] 0).2.count (Event.doneErr ⟨"boom"⟩) = 1 ∧
      (∀ e2, Event.doneErr e2 ∈
        (runSeries [(fun s => StepResult.ok s : Step Nat),
          (fun s => StepResult.fail s ⟨"boom"⟩),
          (fun s => StepResult.ok s)] 0).2 → e2 = ⟨"boom"⟩) ∧
      Event.doneOk ∉
        (runSeries [(fun s => StepResult.ok s : Step Nat),
          (fun s => StepResult.fail s ⟨"boom"⟩), (fun s => StepResult.ok s)] 0).2) :=
  ⟨rfl, rfl, seq_first_failure_aborts _ 0 0 0 _ 1 ⟨"boom"⟩ rfl rfl rfl⟩

/-- Observable events of one parallel group run: `memberDone i` records that
member `i` signalled completion (its success flag is not part of the event
because the join counts completions regardless of outcome), `groupCallback`
that the group's completion callback fired. -/
inductive PEvent where
  | memberDone (i : Nat)
  | groupCallback
  deriving DecidableEq

/-- Modelled from the spec: the fan-in join of a parallel group
(`gulp.parallel` / `async.parallel`, not under src/). All members are started
together; `sched` is the order in which completions arrive, each entry pairing
the member index with its success flag; the join counts completions and fires
the group callback exactly when the count reaches the group size `n`. -/
def joinGo (n : Nat) : Nat → List (Nat × Bool) → List PEvent
  | _, [] => []
  | seen, c :: rest =>
      PEvent.memberDone c.1 ::
        (if seen + 1 = n then PEvent.groupCallback :: joinGo n (seen + 1) rest
         else joinGo n (seen + 1) rest)

/-- The event trace of a parallel group of `n` members whose completions arrive
in the order `sched`. An empty group calls back immediately. -/
def joinTrace (n : Nat) (sched : List (Nat × Bool)) : List PEvent :=
  if n = 0 then [PEvent.groupCallback] else joinGo n 0 sched

theorem joinGo_closed :
    ∀ (sched : List (Nat × Bool)) (n seen : Nat), sched ≠ [] → seen + sched.length = n →
      joinGo n seen sched
        = sched.map (fun c => PEvent.memberDone c.1) ++ [PEvent.groupCallback] := by
  intro sched
  induction sched with
  | nil => intro n seen h _; exact absurd rfl h
  | cons c rest ih =>
    intro n seen _ hlen
    cases rest with
    | nil =>
      have hn : seen + 1 = n := by simpa using hlen
      simp [joinGo, hn]
    | cons c2 rest2 =>
      simp only [List.length_cons] at hlen
      have hne : ¬(seen + 1 = n) := by omega
      have htail : (seen + 1) + (c2 :: rest2).length = n := by
        simp only [List.length_cons]
        omega
      have hstep : joinGo n seen (c :: c2 :: rest2)
          = PEvent.memberDone c.1 :: joinGo n (seen + 1) (c2 :: rest2) := by
        simp only [joinGo, if_neg hne]
      rw [hstep, ih n (seen + 1) (by simp) htail]
      simp

theorem joinTrace_closed (n : Nat) (sched : List (Nat × Bool))
    (h : List.Perm (sched.map Prod.fst) (List.range n)) :
    joinTrace n sched
      = sched.map (fun c => PEvent.memberDone c.1) ++ [PEvent.groupCallback] := by
  have hlen : sched.length = n := by
    have hl := h.length_eq
    simpa using hl
  by_cases hn : n = 0
  · subst hn
    have hnil : sched = [] := List.length_eq_zero.mp hlen
    subst hnil
    simp [joinTrace]
  · have hne : sched ≠ [] := by
      intro hcon
      subst hcon
      simp at hlen
      omega
    rw [joinTrace, if_neg hn]
    exact joinGo_closed sched n 0 hne (by omega)

/-- Claim C2: for a parallel group of n members whose completions arrive in any
order covering every member exactly once (each member completes, successfully
or not), the group completion callback fires exactly once, and only after every
member has completed. -/
theorem parallel_join_once_after_all (n : Nat) (sched : List (Nat × Bool))
    (h : List.Perm (sched.map Prod.fst) (List.range n)) :
    (joinTrace n sched).count PEvent.groupCallback = 1 ∧
    ∃ pre, joinTrace n sched = pre ++ [PEvent.groupCallback] ∧
      PEvent.groupCallback ∉ pre ∧ ∀ i, i < n → PEvent.memberDone i ∈ pre := by
  have htr := joinTrace_closed n sched h
  rw [htr]
  refine ⟨?_, sched.map (fun c => PEvent.memberDone c.1), rfl, ?_, ?_⟩
  · simp [List.count_append, List.count_eq_zero]
  · simp
  · intro i hi
    have hmem : i ∈ sched.map Prod.fst := h.symm.subset (List.mem_range.mpr hi)
    simp only [List.mem_map] at hmem
    obtain ⟨c, hc, hfst⟩ := hmem
    exact List.mem_map.mpr ⟨c, hc, by rw [hfst]⟩

/-- Witness for C2 on a concrete three-member group (completion order 1, 0, 2;
the middle arrival failed). -/
theorem parallel_join_once_after_all_witness :
    List.Perm ([(1, true), (0, false), (2, true)].map Prod.fst) (List.range 3) ∧
    ((joinTrace 3 [(1, true), (0, false), (2, true)]).count PEvent.groupCallback = 1 ∧
      ∃ pre, joinTrace 3 [(1, true), (0, false), (2, true)]
          = pre ++ [PEvent.groupCallback] ∧
        PEvent.groupCallback ∉ pre ∧ ∀ i, i < 3 → PEvent.memberDone i ∈ pre) :=
  ⟨by decide, parallel_join_once_after_all 3 [(1, true), (0, false), (2, true)] (by decide)⟩

/-- The configuration values read by the embedded tasks: `deployType` is
`config.deploy.type`, `trelloBoard` the truthiness of `config.trelloBoard`,
`platform` is `config.platform`, `isWatching` is `config.isWatching`. -/
structure Config where
  deployType : String
  trelloBoard : Bool
  platform : String
  isWatching : Bool
  deriving DecidableEq

/-- The shared mutable options bag (the fields touched by the embedded tasks).
A `Bool` field models JS truthiness of a possibly-undefined flag; an `Option`
field distinguishes an unset property from a set one. -/
structure Options where
  deploy : Bool
  minify : Bool
  version : Option String
  tested_up_to_wp_version : Option String
  tested_up_to_wc_version : Option String
  deployTag : Option Bool
  deployAssets : Option Bool
  owner : Option String
  repo : Option String
  deriving DecidableEq

/-- An options bag with nothing set, as at process start. -/
def emptyOptions : Options :=
  ⟨false, false, none, none, none, none, none, none, none⟩

/-- Embeds `validateEnvVariables` (src/unnamed/part_001 lines 16-26): the list
of variable names actually passed to `util.validateEnvironmentVariables`.
The source builds `variables = ['GITHUB_API_KEY', 'GITHUB_USERNAME']` and, when
`config.deploy.type === 'wc'`, evaluates `variables.concat([...])` - but
`Array.prototype.concat` returns a new array without mutating its receiver and
the result is discarded, so the list passed on is unchanged. -/
def envVariablesChecked (cfg : Config) : List String :=
  let vars0 := ["GITHUB_API_KEY", "GITHUB_USERNAME"]
  let _ :=
    if cfg.deployType = "wc"
    then vars0 ++ ["TRELLO_API_KEY", "TRELLO_API_TOKEN"]
    else vars0
  vars0

/-- Modelled from the spec: `util.validateEnvironmentVariables` (lib/utilities,
not under src/) aborts the pipeline with a descriptive error iff some variable
in the given list is unset; `env v` tells whether variable `v` is set. Returns
true iff validation passes (no abort). -/
def validateEnvironmentVariables (env : String → Bool) (vars : List String) : Bool :=
  vars.all env

/-- Embeds the guard of `validateEnvVariables` around the module-level flag
`validatedEnvVariables` (src/unnamed/part_001 lines 12, 17): given the flag
before the call, returns the flag after the call and whether the
`util.validateEnvironmentVariables` check ran on this call. No statement in the
module ever assigns the flag, so the call leaves it unchanged. -/
def validateEnvVariablesCall (flag : Bool) : Bool × Bool :=
  if flag then (flag, false) else (flag, true)

/-- Embeds lines 38-41 of the deploy task body (src/unnamed/part_001): before
its series starts, deploy sets `options.deploy = true` and
`options.minify = true` in place on the shared options bag. -/
def deployTaskInit (o : Options) : Options :=
  { o with deploy := true, minify := true }

/-- Embeds the task-name list built by the deploy task (src/unnamed/part_001
lines 43-90); the two inline functions are named here after their role. The
Trello step is pushed iff `config.trelloBoard && config.deploy.type === 'wc'`,
then `github:docs_issue` is always pushed last. -/
def deployTasks (cfg : Config) : List String :=
  (["deploy:preflight", "bump", "fetch_latest_wp_wc_versions", "bump:minreqs",
    "prompt:deploy", "anonymous:skip_check", "replace:version", "clean:prerelease",
    "build", "github:get_rissue", "github:get_wc_issues", "shell:git_push_update",
    "deploy_to_production_repo", "anonymous:rebuildPluginConfig", "compress",
    "deploy_create_releases"]
    ++ (if cfg.trelloBoard ∧ cfg.deployType = "wc" then ["trello:update_wc_card"] else []))
  ++ ["github:docs_issue"]

/-- Embeds the parallel preflight group (src/unnamed/part_001 lines 95-107):
for deploy type wc, `search:wt_update_key` is unshifted onto the front. -/
def deployPreflightTasks (cfg : Config) : List String :=
  let tasks := ["shell:git_ensure_clean_working_copy", "scripts:lint", "styles:lint"]
  if cfg.deployType = "wc" then "search:wt_update_key" :: tasks else tasks

/-- Embeds the inline skip-sentinel check of the deploy task (src/unnamed/
part_001 lines 53-59): when `options.version === 'skip'` it logs the red
message and calls the enclosing done callback with no error (a soft stop that
never invokes its own continuation cb); otherwise it calls cb(). -/
def skipCheck : Step Options := fun o =>
  if o.version = some "skip" then StepResult.softStop o else StepResult.ok o

/-- Embeds the inline `rebuildPluginConfig` step (src/unnamed/part_001 lines
74-77): it calls `util.buildPluginConfig()` (an external filesystem effect that
does not touch the options bag) and then cb(). -/
def rebuildPluginConfigStep : Step Options := fun o => StepResult.ok o

/-- The deploy task's series as pipeline steps, with the named tasks
interpreted by an arbitrary semantics `sem` and the two inline functions
embedded directly; the list mirrors `deployTasks`. -/
def deployPipeline (cfg : Config) (sem : String → Step Options) : List (Step Options) :=
  ([sem "deploy:preflight", sem "bump", sem "fetch_latest_wp_wc_versions",
    sem "bump:minreqs", sem "prompt:deploy", skipCheck, sem "replace:version",
    sem "clean:prerelease", sem "build", sem "github:get_rissue",
    sem "github:get_wc_issues", sem "shell:git_push_update",
    sem "deploy_to_production_repo", rebuildPluginConfigStep, sem "compress",
    sem "deploy_create_releases"]
    ++ (if cfg.trelloBoard ∧ cfg.deployType = "wc"
        then [sem "trello:update_wc_card"] else []))
  ++ [sem "github:docs_issue"]

/-- Embeds the task list of `copy_to_wc_repo` (src/unnamed/part_001 lines
230-250): `tasks.shift()` drops the leading build step when `options.deploy`
is truthy. -/
def copy_to_wc_repo_tasks (o : Options) : List String :=
  let tasks := ["build", "shell:git_pull_wc_repo", "clean:wc_repo", "copy:wc_repo"]
  if o.deploy then tasks.drop 1 else tasks

/-- Embeds the task list of `copy_to_wp_repo` (src/unnamed/part_001 lines
291-309): same shape as `copy_to_wc_repo_tasks` for the WP repo. -/
def copy_to_wp_repo_tasks (o : Options) : List String :=
  let tasks := ["build", "shell:svn_checkout", "clean:wp_trunk", "copy:wp_trunk"]
  if o.deploy then tasks.drop 1 else tasks

/-- Embeds the task list of the `scripts` task (src/unnamed/part_001 second
module, lines 352-361): `lint:scripts` is shifted off when not watching and
`gulp.lastRun('lint:scripts')` is truthy (it already ran this session). -/
def scripts_tasks (isWatching lastRunLintScripts : Bool) : List String :=
  let tasks := ["lint:scripts", "compile:scripts"]
  if (!isWatching) && lastRunLintScripts then tasks.drop 1 else tasks

/-- Embeds `exec` (src/tasks/shell.js lines 12-15): the value the spawned
command's exit handler passes to the task callback -
`code > 0 ? 'Command failed [exit code ' + code + ']: ' + command : null`. -/
def execResult (command : String) (code : Nat) : Option String :=
  if code > 0
  then some ("Command failed [exit code " ++ toString code ++ "]: " ++ command)
  else none

/-- An environment in which the version-control credentials are set but the
issue-tracking credentials are not. -/
def envMissingTrello : String → Bool := fun v =>
  v == "GITHUB_API_KEY" || v == "GITHUB_USERNAME"

/-- Claim C3, refuted by the code: for deploy type wc the list of environment
variables actually checked is just the version-control credentials - the
`variables.concat(['TRELLO_API_KEY', 'TRELLO_API_TOKEN'])` result is discarded,
so with the Trello credentials unset the validation still passes and the deploy
proceeds to its shell-spawning steps instead of aborting. -/
theorem wc_env_check_misses_trello_vars :
    envVariablesChecked ⟨"wc", true, "wc", false⟩
      = ["GITHUB_API_KEY", "GITHUB_USERNAME"] ∧
    "TRELLO_API_KEY" ∉ envVariablesChecked ⟨"wc", true, "wc", false⟩ ∧
    envMissingTrello "TRELLO_API_KEY" = false ∧
    validateEnvironmentVariables envMissingTrello
      (envVariablesChecked ⟨"wc", true, "wc", false⟩) = true := by
  decide

/-- Claim C10, refuted by the code: the first call to `validateEnvVariables`
runs the check but leaves the module flag false (no statement ever assigns it),
so the second call in the same process runs the check again instead of
returning immediately. -/
theorem validate_env_flag_never_set :
    validateEnvVariablesCall false = (false, true) ∧
    (validateEnvVariablesCall (validateEnvVariablesCall false).1).2 = true := by
  decide

theorem string_data_append (s t : String) : (s ++ t).data = s.data ++ t.data := by
  cases s
  cases t
  rfl

/-- Claim C5: a step running a shell command through `exec` fails iff the
spawned command's exit code is non-zero; in that case the error message carries
the command (as a suffix) and the exit code (as an inner segment), and on exit
code zero the callback receives null. -/
theorem exec_error_iff_nonzero_exit (command : String) (code : Nat) :
    (execResult command code = none ↔ code = 0) ∧
    (code ≠ 0 → ∃ s, execResult command code = some s ∧
      (∃ pre, s.data = pre ++ command.data) ∧
      (∃ l r, s.data = l ++ (toString code).data ++ r)) := by
  constructor
  · constructor
    · intro h
      by_contra hc
      have hpos : 0 < code := Nat.pos_of_ne_zero hc
      simp [execResult, hpos] at h
    · intro h
      simp [execResult, h]
  · intro h
    have hpos : 0 < code := Nat.pos_of_ne_zero h
    refine ⟨"Command failed [exit code " ++ toString code ++ "]: " ++ command,
      by simp [execResult, hpos], ?_, ?_⟩
    · exact ⟨("Command failed [exit code " ++ toString code ++ "]: ").data,
        by simp [string_data_append]⟩
    · refine ⟨("Command failed [exit code ").data, ("]: " ++ command).data, ?_⟩
      simp [string_data_append]

/-- Witness for C5 at the command git push with exit code 2. -/
theorem exec_error_iff_nonzero_exit_witness :
    ((2 : Nat) ≠ 0) ∧
    (∃ s, execResult "git push" 2 = some s ∧
      (∃ pre, s.data = pre ++ "git push".data) ∧
      (∃ l r, s.data = l ++ (toString (2 : Nat)).data ++ r)) :=
  ⟨by decide, (exec_error_iff_nonzero_exit "git push" 2).2 (by decide)⟩

theorem deployPipeline_five :
    ∀ (cfg : Config) (sem : String → Step Options),
      (deployPipeline cfg sem)[5]? = some skipCheck := by
  intro cfg sem
  rfl

/-- Claim C4: if the deploy pipeline reaches the inline sentinel check (the
five preceding steps succeeded) in a state where the interactive prompt stored
the sentinel `skip` in `options.version`, then the pipeline completes
successfully (exactly one successful done, no error ever reported) and no step
after the sentinel check - `replace:version` onwards - is ever invoked. -/
theorem deploy_skip_completes_successfully (cfg : Config) (sem : String → Step Options)
    (s s1 : Options)
    (h1 : runUpTo 5 (deployPipeline cfg sem) s = some s1)
    (h2 : s1.version = some "skip") :
    (∀ e, Event.doneErr e ∉ (runSeries (deployPipeline cfg sem) s).2) ∧
    (runSeries (deployPipeline cfg sem) s).2.count Event.doneOk = 1 ∧
    (∀ j, Event.invoke j ∈ (runSeries (deployPipeline cfg sem) s).2 → j ≤ 5) := by
  have hsk : skipCheck s1 = StepResult.softStop s1 := by
    simp [skipCheck, h2]
  have htr := runSeriesFrom_softStop_trace 5 (deployPipeline cfg sem) s s1 s1 skipCheck 0
    h1 (deployPipeline_five cfg sem) hsk
  unfold runSeries
  rw [htr]
  refine ⟨?_, ?_, ?_⟩
  · intro e
    simp
  · simp [List.count_append, List.count_eq_zero]
  · intro j hj
    simp [List.mem_range'_1] at hj
    omega

/-- A semantics for the named deploy steps in which every task succeeds without
touching the options, except the interactive prompt, which stores the sentinel
skip answer. -/
def semSkip : String → Step Options := fun nm =>
  if nm = "prompt:deploy"
  then fun o => StepResult.ok { o with version := some "skip" }
  else fun o => StepResult.ok o

/-- Witness for C4: a wc deploy in which the prompt answers skip. -/
theorem deploy_skip_completes_successfully_witness :
    runUpTo 5 (deployPipeline ⟨"wc", true, "wc", false⟩ semSkip) emptyOptions
      = some { emptyOptions with version := some "skip" } ∧
    ({ emptyOptions with version := some "skip" } : Options).version = some "skip" ∧
    ((∀ e, Event.doneErr e ∉
        (runSeries (deployPipeline ⟨"wc", true, "wc", false⟩ semSkip) emptyOptions).2) ∧
      (runSeries (deployPipeline ⟨"wc", true, "wc", false⟩ semSkip)
        emptyOptions).2.count Event.doneOk = 1 ∧
      (∀ j, Event.invoke j ∈
        (runSeries (deployPipeline ⟨"wc", true, "wc", false⟩ semSkip) emptyOptions).2 →
          j ≤ 5)) :=
  ⟨by decide, rfl,
    deploy_skip_completes_successfully ⟨"wc", true, "wc", false⟩ semSkip emptyOptions
      { emptyOptions with version := some "skip" } (by decide) rfl⟩

/-- The outcome of one HTTP request as seen by its callback: an error, or a
response body (possibly empty - the source guards the write with `if (body)`). -/
inductive ReqOutcome where
  | failure (e : Err)
  | success (body : String)
  deriving DecidableEq

/-- Embeds the WP version request of `fetch_latest_wp_wc_versions`
(src/unnamed/part_001 lines 316-326): on error the callback receives the
error; on success with a non-empty body the shared options get
`tested_up_to_wp_version` from the parsed body (`JSON.parse(body).offers[0]
.version`, abstracted as `parseWp`), and the callback receives nothing. -/
def runWpRequest (parseWp : String → String) (r : ReqOutcome) (o : Options) :
    Options × Option Err :=
  match r with
  | ReqOutcome.failure e => (o, some e)
  | ReqOutcome.success body =>
      (if body = "" then o
       else { o with tested_up_to_wp_version := some (parseWp body) }, none)

/-- Embeds the WC version request (src/unnamed/part_001 lines 329-339),
present only when `config.platform === 'wc'`; the parsed body
(`JSON.parse(body).version`) is abstracted as `parseWc`. -/
def runWcRequest (parseWc : String → String) (r : ReqOutcome) (o : Options) :
    Options × Option Err :=
  match r with
  | ReqOutcome.failure e => (o, some e)
  | ReqOutcome.success body =>
      (if body = "" then o
       else { o with tested_up_to_wc_version := some (parseWc body) }, none)

/-- Embeds `fetch_latest_wp_wc_versions` (src/unnamed/part_001 lines 311-348).
Both requests are issued by `async.parallel`; each updates its own options
field. The final callback receives the first request error, if any, and only
logs it; `done()` is then called with no argument, so the third component (the
error the task reports to its pipeline) is always none. -/
def fetch_latest_wp_wc_versions (platform : String) (parseWp parseWc : String → String)
    (r1 r2 : ReqOutcome) (o : Options) : Options × Option Err × Option Err :=
  let p1 := runWpRequest parseWp r1 o
  let p2 := if platform = "wc" then runWcRequest parseWc r2 p1.1 else (p1.1, none)
  (p2.1, (match p1.2 with | some e => some e | none => p2.2), none)

/-- Claim C6: whatever the two remote lookups do, the task reports no error to
its pipeline; a successful lookup with a non-empty body stores the fetched WP
version, and, when the platform is wc, likewise the fetched WC version. -/
theorem fetch_versions_best_effort (platform : String) (parseWp parseWc : String → String)
    (r1 r2 : ReqOutcome) (o : Options) :
    (fetch_latest_wp_wc_versions platform parseWp parseWc r1 r2 o).2.2 = none ∧
    (∀ b1, r1 = ReqOutcome.success b1 → b1 ≠ "" →
      (fetch_latest_wp_wc_versions platform parseWp parseWc r1 r2 o).1.tested_up_to_wp_version
        = some (parseWp b1)) ∧
    (platform = "wc" → ∀ b2, r2 = ReqOutcome.success b2 → b2 ≠ "" →
      (fetch_latest_wp_wc_versions platform parseWp parseWc r1 r2 o).1.tested_up_to_wc_version
        = some (parseWc b2)) := by
  refine ⟨rfl, ?_, ?_⟩
  · intro b1 hr1 hb1
    subst hr1
    by_cases hp : platform = "wc"
    · cases r2 with
      | failure e =>
        simp [fetch_latest_wp_wc_versions, runWpRequest, runWcRequest, hp, hb1]
      | success b2 =>
        by_cases hb2 : b2 = ""
        · simp [fetch_latest_wp_wc_versions, runWpRequest, runWcRequest, hp, hb1, hb2]
        · simp [fetch_latest_wp_wc_versions, runWpRequest, runWcRequest, hp, hb1, hb2]
    · simp [fetch_latest_wp_wc_versions, runWpRequest, hp, hb1]
  · intro hp b2 hr2 hb2
    subst hr2
    cases r1 with
    | failure e =>
      simp [fetch_latest_wp_wc_versions, runWpRequest, runWcRequest, hp, hb2]
    | success b1 =>
      by_cases hb1 : b1 = ""
      · simp [fetch_latest_wp_wc_versions, runWpRequest, runWcRequest, hp, hb1, hb2]
      · simp [fetch_latest_wp_wc_versions, runWpRequest, runWcRequest, hp, hb1, hb2]

/-- Witness for C6: a wc-platform fetch in which both lookups succeed. -/
theorem fetch_versions_best_effort_witness :
    ((ReqOutcome.success "6.8") = ReqOutcome.success "6.8") ∧ ("6.8" ≠ "") ∧
    (("wc" : String) = "wc") ∧ ((ReqOutcome.success "9.8") = ReqOutcome.success "9.8") ∧
    ("9.8" ≠ "") ∧
    (fetch_latest_wp_wc_versions "wc" (fun b => b) (fun b => b)
      (ReqOutcome.success "6.8") (ReqOutcome.success "9.8") emptyOptions).2.2 = none ∧
    (fetch_latest_wp_wc_versions "wc" (fun b => b) (fun b => b)
      (ReqOutcome.success "6.8") (ReqOutcome.success "9.8")
        emptyOptions).1.tested_up_to_wp_version = some "6.8" ∧
    (fetch_latest_wp_wc_versions "wc" (fun b => b) (fun b => b)
      (ReqOutcome.success "6.8") (ReqOutcome.success "9.8")
        emptyOptions).1.tested_up_to_wc_version = some "9.8" :=
  ⟨rfl, by decide, rfl, rfl, by decide,
    (fetch_versions_best_effort "wc" (fun b => b) (fun b => b)
      (ReqOutcome.success "6.8") (ReqOutcome.success "9.8") emptyOptions).1,
    (fetch_versions_best_effort "wc" (fun b => b) (fun b => b)
      (ReqOutcome.success "6.8") (ReqOutcome.success "9.8") emptyOptions).2.1
      "6.8" rfl (by decide),
    (fetch_versions_best_effort "wc" (fun b => b) (fun b => b)
      (ReqOutcome.success "6.8") (ReqOutcome.success "9.8") emptyOptions).2.2
      rfl "9.8" rfl (by decide)⟩

/-- Embeds `_.merge({ deployTag: true, deployAssets: true }, options)` in
`deploy_to_wp_repo` (src/unnamed/part_001 lines 272-275): lodash merge writes
the defaults into a fresh object and then overwrites them with the fields set
in `options`, so a field keeps its value when set and receives the default
when unset. The merged value is a new object. -/
def mergeDeployDefaults (o : Options) : Options :=
  { o with deployTag := some (o.deployTag.getD true),
           deployAssets := some (o.deployAssets.getD true) }

/-- The two module closures that captured the options bag: the deploy module
(src/unnamed/part_001) and the shell module (src/tasks/shell.js). Each field
is the options value reachable through that module's local `options` binding;
they start out as the same shared object. -/
structure ModuleBindings where
  part001 : Options
  shellJs : Options
  deriving DecidableEq

/-- Embeds the assignment `options = _.merge({...}, options)` in
`deploy_to_wp_repo` (src/unnamed/part_001 line 272): it rebinds only the
deploy module's local `options` variable to the new merged object; the shell
module's binding still refers to the original object, which the assignment
does not touch. -/
def deployToWpRepoRebind (m : ModuleBindings) : ModuleBindings :=
  { m with part001 := mergeDeployDefaults m.part001 }

/-- Counterexample to claim C7 as stated: start both modules on the same
options object with `deployTag` unset; after `deploy_to_wp_repo` applies its
defaulting, a read through the deploy module's binding sees
`deployTag = true`, but a task in the shell module still reads the original
object, where `deployTag` is unset - the defaulting is not visible to it. -/
theorem deploy_defaults_rebind_counterexample :
    (deployToWpRepoRebind ⟨emptyOptions, emptyOptions⟩).part001.deployTag = some true ∧
    (deployToWpRepoRebind ⟨emptyOptions, emptyOptions⟩).shellJs.deployTag = none ∧
    (deployToWpRepoRebind ⟨emptyOptions, emptyOptions⟩).shellJs.deployTag
      ≠ (deployToWpRepoRebind ⟨emptyOptions, emptyOptions⟩).part001.deployTag := by
  decide

/-- Claim C7 as amended: in-place mutations of the shared options bag are
visible to every later step - the deploy task's setting of `options.deploy`
and `options.minify` is seen by `copy_to_wc_repo` and `copy_to_wp_repo`
(which therefore drop their build step), and the sequential runner hands each
step exactly the state produced by the step before it; but
`deploy_to_wp_repo`'s defaulting of deployTag/deployAssets rebinds only its
own module's options variable to a new merged object, so it is visible to
later reads through that module's binding and not to tasks holding the
original reference. -/
theorem options_mutation_visibility (o : Options) (m : ModuleBindings)
    (st : Step Options) (rest : List (Step Options)) (s s1 : Options) (i : Nat)
    (hstep : st s = StepResult.ok s1) :
    (deployTaskInit o).deploy = true ∧
    (deployTaskInit o).minify = true ∧
    copy_to_wc_repo_tasks (deployTaskInit o)
      = ["shell:git_pull_wc_repo", "clean:wc_repo", "copy:wc_repo"] ∧
    copy_to_wp_repo_tasks (deployTaskInit o)
      = ["shell:svn_checkout", "clean:wp_trunk", "copy:wp_trunk"] ∧
    (runSeriesFrom i (st :: rest) s).1 = (runSeriesFrom (i + 1) rest s1).1 ∧
    (runSeriesFrom i (st :: rest) s).2
      = Event.invoke i :: (runSeriesFrom (i + 1) rest s1).2 ∧
    (deployToWpRepoRebind m).part001.deployTag = some (m.part001.deployTag.getD true) ∧
    (deployToWpRepoRebind m).part001.deployAssets
      = some (m.part001.deployAssets.getD true) ∧
    (deployToWpRepoRebind m).shellJs = m.shellJs := by
  refine ⟨rfl, rfl, rfl, rfl, ?_, ?_, rfl, rfl, rfl⟩
  · simp [runSeriesFrom, hstep]
  · simp [runSeriesFrom, hstep]

/-- Witness for C7 (amended) on the concrete empty options bag and a one-step
pipeline whose step sets the deploy flag. -/
theorem options_mutation_visibility_witness :
    ((fun o => StepResult.ok (deployTaskInit o) : Step Options) emptyOptions
      = StepResult.ok (deployTaskInit emptyOptions)) ∧
    ((deployTaskInit emptyOptions).deploy = true ∧
      (deployTaskInit emptyOptions).minify = true ∧
      copy_to_wc_repo_tasks (deployTaskInit emptyOptions)
        = ["shell:git_pull_wc_repo", "clean:wc_repo", "copy:wc_repo"] ∧
      copy_to_wp_repo_tasks (deployTaskInit emptyOptions)
        = ["shell:svn_checkout", "clean:wp_trunk", "copy:wp_trunk"] ∧
      (runSeriesFrom 0 ((fun o => StepResult.ok (deployTaskInit o)) :: [])
          emptyOptions).1
        = (runSeriesFrom 1 [] (deployTaskInit emptyOptions)).1 ∧
      (runSeriesFrom 0 ((fun o => StepResult.ok (deployTaskInit o)) :: [])
          emptyOptions).2
        = Event.invoke 0 :: (runSeriesFrom 1 [] (deployTaskInit emptyOptions)).2 ∧
      (deployToWpRepoRebind ⟨emptyOptions, emptyOptions⟩).part001.deployTag
        = some (emptyOptions.deployTag.getD true) ∧
      (deployToWpRepoRebind ⟨emptyOptions, emptyOptions⟩).part001.deployAssets
        = some (emptyOptions.deployAssets.getD true) ∧
      (deployToWpRepoRebind ⟨emptyOptions, emptyOptions⟩).shellJs = emptyOptions) :=
  ⟨rfl, options_mutation_visibility emptyOptions ⟨emptyOptions, emptyOptions⟩
    (fun o => StepResult.ok (deployTaskInit o)) [] emptyOptions
    (deployTaskInit emptyOptions) 0 rfl⟩

/-- Claim C8: each dynamically built task list is fixed by configuration read
at invocation time, before execution starts (each builder is a pure function
of that configuration, and the runner then walks the returned list): the copy
tasks keep their build step iff `options.deploy` is unset, the deploy task
appends the Trello step iff a Trello board is configured and the deploy type
is wc, and the scripts task keeps `lint:scripts` unless it is not watching and
the linter already ran this session. -/
theorem dynamic_task_lists_fixed (o : Options) (cfg : Config) (w lr : Bool) :
    ("build" ∈ copy_to_wc_repo_tasks o ↔ o.deploy = false) ∧
    ("build" ∈ copy_to_wp_repo_tasks o ↔ o.deploy = false) ∧
    ("trello:update_wc_card" ∈ deployTasks cfg
      ↔ (cfg.trelloBoard = true ∧ cfg.deployType = "wc")) ∧
    ("lint:scripts" ∈ scripts_tasks w lr ↔ ¬(w = false ∧ lr = true)) := by
  refine ⟨?_, ?_, ?_, ?_⟩
  · cases h : o.deploy <;> simp [copy_to_wc_repo_tasks, h]
  · cases h : o.deploy <;> simp [copy_to_wp_repo_tasks, h]
  · by_cases hb : cfg.trelloBoard = true <;> by_cases hd : cfg.deployType = "wc" <;>
      simp [deployTasks, hb, hd]
  · cases w <;> cases lr <;> simp [scripts_tasks]

/-- Witness for C8 at a deploy-mode options bag, a wc config with a Trello
board, and a non-watching session whose linter already ran. -/
theorem dynamic_task_lists_fixed_witness :
    ("build" ∈ copy_to_wc_repo_tasks (deployTaskInit emptyOptions)
      ↔ (deployTaskInit emptyOptions).deploy = false) ∧
    ("build" ∈ copy_to_wp_repo_tasks (deployTaskInit emptyOptions)
      ↔ (deployTaskInit emptyOptions).deploy = false) ∧
    ("trello:update_wc_card" ∈ deployTasks ⟨"wc", true, "wc", false⟩
      ↔ ((⟨"wc", true, "wc", false⟩ : Config).trelloBoard = true ∧
          (⟨"wc", true, "wc", false⟩ : Config).deployType = "wc")) ∧
    ("lint:scripts" ∈ scripts_tasks false true ↔ ¬(false = false ∧ true = true)) :=
  dynamic_task_lists_fixed (deployTaskInit emptyOptions) ⟨"wc", true, "wc", false⟩ false true

/-- Modelled from the spec: the workflow runner's task registry (`gulp.task`,
not under src/) - registering a body under an already-registered name silently
overwrites the earlier definition, and running a name invokes the
last-registered body. The registry is a pure map, so the outcome is the same
on every run. -/
def registerTask {β : Type} (reg : String → Option β) (nm : String) (body : β) :
    String → Option β :=
  fun q => if q = nm then some body else reg q

/-- Embeds the registration order of src/tasks/shell.js as far as
`shell:update_framework_commit` is concerned: the module registers that name
twice (lines 39 and 59), with bodies `b1` then `b2`, after registering
`shell:update_framework` (line 18, body `b0`). -/
def shellModuleRegister {β : Type} (reg : String → Option β) (b0 b1 b2 : β) :
    String → Option β :=
  registerTask
    (registerTask
      (registerTask reg "shell:update_framework" b0)
      "shell:update_framework_commit" b1)
    "shell:update_framework_commit" b2

/-- Claim C9: after the shell module registers `shell:update_framework_commit`
twice, looking the name up in the registry - what running the task does -
always yields the later-registered body, for every prior registry state and
every pair of bodies (hence deterministically, on every run). -/
theorem duplicate_registration_overwrites {β : Type} (reg : String → Option β)
    (b0 b1 b2 : β) :
    shellModuleRegister reg b0 b1 b2 "shell:update_framework_commit" = some b2 := by
  simp [shellModuleRegister, registerTask]

/-- Witness for C9 with Nat-numbered bodies over the empty registry. -/
theorem duplicate_registration_overwrites_witness :
    shellModuleRegister (fun _ => (none : Option Nat)) 0 1 2
      "shell:update_framework_commit" = some 2 :=
  duplicate_registration_overwrites (fun _ => none) 0 1 2
